import Mathlib

/-!
Shallow embedding of the gRPC interceptor pipeline of `cg-shared-libs`
(`src/grpc/client.go`, `src/grpc/server.go`, the Connect adapter), together
with theorems settling the spec claims about it.

Machine integers of the source (Go `int64`) are modelled as `Int` with the
explicit range bounds where the source library checks them; durations as
`Nat`; Go strings as `String`, with byte-level operations of the source
mapped to the character list `String.data` (all literals involved are
ASCII, where the two views agree).
-/

namespace CgSharedLibs

/-! ## Error codes and error values -/

/-- The closed gRPC status-code enumeration (`google.golang.org/grpc/codes`). -/
inductive Code where
  | ok
  | cancelledC
  | unknown
  | invalidArgument
  | deadlineExceeded
  | notFound
  | alreadyExists
  | permissionDenied
  | resourceExhausted
  | failedPrecondition
  | aborted
  | outOfRange
  | unimplemented
  | internalC
  | unavailable
  | dataLoss
  | unauthenticated
  deriving DecidableEq, Repr

/-- Go `error` values flowing through the client/server paths: gRPC status
errors (code + message), the two context errors, and untyped errors. -/
inductive GoErr where
  | statusE (code : Code) (msg : String)
  | ctxCanceled
  | ctxDeadlineExceeded
  | otherE (msg : String)
  deriving DecidableEq, Repr

/-- `status.Code(err)`: the status code of a status error, the canonical code
for the two context errors, `Unknown` for everything else. -/
def errCode : GoErr → Code
  | .statusE c _ => c
  | .ctxCanceled => .cancelledC
  | .ctxDeadlineExceeded => .deadlineExceeded
  | .otherE _ => .unknown

/-- `isRetryable` from `src/grpc/client.go` lines 257-264: the retryable set
is exactly {Unavailable, ResourceExhausted, Aborted, Internal}. -/
def isRetryable (code : Code) : Bool :=
  match code with
  | .unavailable | .resourceExhausted | .aborted | .internalC => true
  | _ => false

/-- The error a Go context reports once its `Done` channel is closed. -/
inductive CtxErr where
  | canceled
  | deadlineExceeded
  deriving DecidableEq, Repr

/-- `ctx.Err()` as a Go error value. -/
def CtxErr.toErr : CtxErr → GoErr
  | .canceled => .ctxCanceled
  | .deadlineExceeded => .ctxDeadlineExceeded

/-! ## Retry engine (`src/grpc/client.go` lines 174-255) -/

/-- Observable outcome of one run of the retry interceptor: the returned
error (`none` = success), how many times the invoker ran, and the list of
backoff waits actually completed (durations, in order). -/
structure RetryResult where
  result : Option GoErr
  invocations : Nat
  waits : List Nat
  deriving DecidableEq, Repr

/-- The loop body of `retryInterceptor` (`src/grpc/client.go` lines 174-255),
for `i = firstIdx .. firstIdx + remaining`.  The environment is given by
`invoke j` (the invoker's result on the 0-indexed `j`-th invocation;
`none` = success) and `ctxDone j` (whether the governing context's `Done`
wins the `select` during the backoff wait after attempt `j`, and with which
context error).  The Go control flow: invoke; on success return nil; on a
non-retryable code return that error at once; at `i = maxRetries` fall out
of the loop returning the last error; otherwise wait `waitTime * (i+1)`, or
return `ctx.Err()` if the context is done during the wait. -/
def retryGo (waitTime : Nat) (invoke : Nat → Option GoErr)
    (ctxDone : Nat → Option CtxErr) : Nat → Nat → RetryResult
  | i, remaining =>
    match invoke i with
    | none => ⟨none, 1, []⟩
    | some e =>
      if isRetryable (errCode e) then
        match remaining with
        | 0 => ⟨some e, 1, []⟩
        | r + 1 =>
          match ctxDone i with
          | some ce => ⟨some ce.toErr, 1, []⟩
          | none =>
            let rest := retryGo waitTime invoke ctxDone (i + 1) r
            ⟨rest.result, rest.invocations + 1, waitTime * (i + 1) :: rest.waits⟩
      else ⟨some e, 1, []⟩

/-- `retryInterceptor(maxRetries, waitTime)` applied to one call: the trace of
its `for i := 0; i <= maxRetries; i++` loop starting at `i = 0`. -/
def retryInterceptor (maxRetries waitTime : Nat) (invoke : Nat → Option GoErr)
    (ctxDone : Nat → Option CtxErr) : RetryResult :=
  retryGo waitTime invoke ctxDone 0 maxRetries

/-! ## Request context model (`src/grpc/server.go`) -/

/-- `AuthInfo` (`src/grpc/server.go` lines 276-280). -/
structure AuthInfo where
  userID : Int
  phone : String
  deviceID : String
  deriving DecidableEq, Repr

/-- `JWTClaims` (`src/grpc/server.go` lines 266-270). -/
structure JWTClaims where
  userID : Int
  phone : String
  deviceID : String
  deriving DecidableEq, Repr

/-- Keys usable with `context.WithValue`: the private struct key type
`authContextKey{}` (server.go line 273), or a plain string key as an
unrelated context writer would use. -/
inductive CtxKey where
  | authKey
  | strKey (s : String)
  deriving DecidableEq, Repr

/-- Values stored in a context. -/
inductive CtxVal where
  | authV (info : AuthInfo)
  | strV (s : String)
  deriving DecidableEq, Repr

/-- A Go `context.Context` as the call path observes it: the incoming
metadata (`none` when `metadata.FromIncomingContext` reports `ok = false`),
the outgoing metadata pairs appended so far, and the `WithValue` entries
(most recent first, as lookup sees them). -/
structure Context where
  incomingMD : Option (List (String × List String))
  outgoingMD : List (String × String)
  values : List (CtxKey × CtxVal)
  deriving DecidableEq, Repr

/-- `context.WithValue`: the new entry shadows older ones on lookup. -/
def withValue (ctx : Context) (k : CtxKey) (v : CtxVal) : Context :=
  { ctx with values := (k, v) :: ctx.values }

/-- `metadata.AppendToOutgoingContext(ctx, k, v)`. -/
def appendToOutgoingContext (ctx : Context) (k v : String) : Context :=
  { ctx with outgoingMD := ctx.outgoingMD ++ [(k, v)] }

/-- ASCII lowering of one character (header keys are ASCII). -/
def lowerChar (c : Char) : Char :=
  if 'A' ≤ c ∧ c ≤ 'Z' then Char.ofNat (c.toNat + 32) else c

/-- ASCII lowering of a key string, as `strings.ToLower` performs on the
ASCII-only metadata keys involved. -/
def lowerKey (s : String) : String := String.mk (s.data.map lowerChar)

/-- `metadata.MD.Get(key)`: lowercases the key argument and returns the value
slice (empty when absent); stored keys are already lowercase. -/
def mdGet (md : List (String × List String)) (key : String) : List String :=
  match md.find? (fun p => p.1 == lowerKey key) with
  | some p => p.2
  | none => []

/-- `GetMetadata` (`src/grpc/server.go` lines 204-225): first value of the
key, or `""` when the context has no incoming metadata or the key has no
values. -/
def GetMetadata (ctx : Context) (key : String) : String :=
  match ctx.incomingMD with
  | none => ""
  | some md =>
    match mdGet md key with
    | [] => ""
    | v :: _ => v

/-! ## `GetUserID` and the `Sscanf "%d"` model -/

def int64Max : Int := 2 ^ 63 - 1

def int64Min : Int := -(2 ^ 63)

/-- Value of a decimal digit string. -/
def digitsVal (ds : List Char) : Nat :=
  ds.foldl (fun acc c => acc * 10 + (c.toNat - 48)) 0

/-- The white-space table of Go's `fmt` scanner (`fmt/scan.go`, `var space`):
the runes `SkipSpace` silently skips before a verb.  Newline is in the table
but `Sscanf` errors on it instead of skipping; that case is handled
separately in `sscanfInt64`. -/
def isGoSpace (c : Char) : Bool :=
  decide ((0x09 ≤ c.toNat ∧ c.toNat ≤ 0x0d) ∨ c.toNat = 0x20 ∨ c.toNat = 0x85 ∨
    c.toNat = 0xa0 ∨ c.toNat = 0x1680 ∨ (0x2000 ≤ c.toNat ∧ c.toNat ≤ 0x200a) ∨
    (0x2028 ≤ c.toNat ∧ c.toNat ≤ 0x2029) ∨ c.toNat = 0x202f ∨ c.toNat = 0x205f ∨
    c.toNat = 0x3000)

/-- Modelled library behavior: Go `fmt.Sscanf(val, "%d", &id)` with
`id : int64` (`src/grpc/server.go` line 235).  The `%d` verb silently skips
leading white space — every rune of the scanner's space table except
newline; reaching a `'\n'` (also one following a skipped `'\r'`) is an
"unexpected newline" error — then reads an optional sign and a non-empty run
of decimal digits (trailing input is ignored), and fails when no digit
follows or the value overflows int64.  `some id` exactly when Sscanf yields
`n = 1, err = nil`. -/
def sscanfInt64 (s : String) : Option Int :=
  let cs := s.data.dropWhile (fun c => isGoSpace c && c != '\n')
  match cs with
  | [] => none
  | c :: rest =>
    if c == '\n' then none
    else
      let neg : Bool := c == '-'
      let body : List Char := if c == '-' || c == '+' then rest else c :: rest
      let digits := body.takeWhile Char.isDigit
      if digits.isEmpty then none
      else
        let v : Int :=
          if neg then -(digitsVal digits : Int) else (digitsVal digits : Int)
        if v < int64Min ∨ int64Max < v then none else some v

/-- `GetUserID` (`src/grpc/server.go` lines 228-247): `x-user-id` from
incoming metadata, 0 when empty or unparsable. -/
def GetUserID (ctx : Context) : Int :=
  let val := GetMetadata ctx "x-user-id"
  if val = "" then 0
  else
    match sscanfInt64 val with
    | none => 0
    | some id => id

/-! ## Auth gate (`src/grpc/server.go` lines 254-370) -/

/-- `GetAuthInfo` (server.go lines 283-286): the value under the private
`authContextKey{}` key, when it is an `*AuthInfo`.  Go returns the pair
`(info, ok)`; `some info` stands for `(info, true)` and `none` for
`(nil, false)`. -/
def GetAuthInfo (ctx : Context) : Option AuthInfo :=
  match ctx.values.find? (fun p => p.1 == CtxKey.authKey) with
  | some (_, .authV info) => some info
  | _ => none

/-- The prefix handling of `AuthInterceptor` (server.go lines 325-333):
`if len(token) > 7 && token[:7] == "Bearer " { token = token[7:] }`. -/
def stripBearer (token : String) : String :=
  if 7 < token.data.length ∧ token.data.take 7 = "Bearer ".data
  then String.mk (token.data.drop 7) else token

/-- What the closure returned by `AuthInterceptor` decides before (possibly)
invoking the handler: rejection with an error, or proceeding into the handler
with a (possibly augmented) context. -/
inductive AuthDecision where
  | rejected (e : GoErr)
  | proceed (ctx : Context)
  deriving DecidableEq, Repr

/-- The body of the interceptor returned by `AuthInterceptor` (server.go
lines 304-369) up to the final `handler(ctx, req)` call.  `validator` is the
injected `JWTValidator.ValidateAccessToken`; `skipMethods` is
`cfg.SkipMethods` (the `skipMap` built from it answers exactly list
membership). -/
def authDecision (validator : String → Except GoErr JWTClaims)
    (skipMethods : List String) (ctx : Context) (fullMethod : String) :
    AuthDecision :=
  if skipMethods.contains fullMethod then .proceed ctx
  else
    let token := GetMetadata ctx "authorization"
    if token = "" then
      .rejected (.statusE .unauthenticated "missing authorization token")
    else
      match validator (stripBearer token) with
      | .error _ => .rejected (.statusE .unauthenticated "invalid token")
      | .ok claims =>
        let authInfo : AuthInfo := ⟨claims.userID, claims.phone, claims.deviceID⟩
        let ctx1 := withValue ctx .authKey (.authV authInfo)
        let ctx2 := appendToOutgoingContext ctx1 "x-user-id" (toString claims.userID)
        .proceed ctx2

/-- Result of running a handler, or an interceptor wrapped around it: a
normal Go return `(resp, err)`, or an uncaught panic carrying a value. -/
inductive HandlerOutcome (β : Type) where
  | returns (resp : Option β) (err : Option GoErr)
  | panicked (v : String)
  deriving DecidableEq, Repr

/-- `recoveryInterceptor` (server.go lines 117-135): runs the handler inside
a deferred `recover()`; a panic is logged and converted to
`(nil, status.Errorf(codes.Internal, "internal error"))` via the named
return, while normal returns pass through unchanged. -/
def recoveryInterceptor {α β : Type} (handler : Context → α → HandlerOutcome β)
    (ctx : Context) (req : α) : HandlerOutcome β :=
  match handler ctx req with
  | .panicked _ => .returns none (some (.statusE .internalC "internal error"))
  | r => r

/-- The full auth interceptor: decide, then either return `(nil, err)` or
invoke the handler with the decided context. -/
def AuthInterceptor {α β : Type} (validator : String → Except GoErr JWTClaims)
    (skipMethods : List String) (handler : Context → α → HandlerOutcome β)
    (ctx : Context) (fullMethod : String) (req : α) : HandlerOutcome β :=
  match authDecision validator skipMethods ctx fullMethod with
  | .rejected e => .returns none (some e)
  | .proceed ctx2 => handler ctx2 req

/-! ## Connect-to-gRPC error bridge (`src/grpc/connect_adapter.go`) -/

/-- Connect's error-code enumeration (`connectrpc.com/connect`, codes 1-16;
Connect has no OK code). -/
inductive ConnectCode where
  | canceled
  | unknown
  | invalidArgument
  | deadlineExceeded
  | notFound
  | alreadyExists
  | permissionDenied
  | resourceExhausted
  | failedPrecondition
  | aborted
  | outOfRange
  | unimplemented
  | internalC
  | unavailable
  | dataLoss
  | unauthenticated
  deriving DecidableEq, Repr

/-- An error value handed to the adapter: a `*connect.Error` (with its code
and `Message()`), or any other error (with its `Error()` text). -/
inductive AdapterInput where
  | connectE (code : ConnectCode) (msg : String)
  | genericE (msg : String)
  deriving DecidableEq, Repr

/-- `ConvertConnectToGRPCError`: nil in, nil out; a `*connect.Error` goes
through the 13-case switch (default: Unknown) keeping `connectErr.Message()`;
any other error becomes Unknown with its `Error()` text.  Total and pure by
construction. -/
def ConvertConnectToGRPCError : Option AdapterInput → Option GoErr
  | none => none
  | some (.genericE m) => some (.statusE .unknown m)
  | some (.connectE c m) =>
    let grpcCode : Code :=
      match c with
      | .notFound => .notFound
      | .invalidArgument => .invalidArgument
      | .alreadyExists => .alreadyExists
      | .permissionDenied => .permissionDenied
      | .unauthenticated => .unauthenticated
      | .resourceExhausted => .resourceExhausted
      | .failedPrecondition => .failedPrecondition
      | .aborted => .aborted
      | .outOfRange => .outOfRange
      | .unimplemented => .unimplemented
      | .internalC => .internalC
      | .unavailable => .unavailable
      | .dataLoss => .dataLoss
      | _ => .unknown
    some (.statusE grpcCode m)

/-- The 13-row code table of the spec's Error Code Bridge section, written
from the spec's words (source code on the left, target code on the right). -/
def bridgeTable : List (ConnectCode × Code) :=
  [(.notFound, .notFound), (.invalidArgument, .invalidArgument),
   (.alreadyExists, .alreadyExists), (.permissionDenied, .permissionDenied),
   (.unauthenticated, .unauthenticated),
   (.resourceExhausted, .resourceExhausted),
   (.failedPrecondition, .failedPrecondition), (.aborted, .aborted),
   (.outOfRange, .outOfRange), (.unimplemented, .unimplemented),
   (.internalC, .internalC), (.unavailable, .unavailable),
   (.dataLoss, .dataLoss)]

/-! ## Concrete fixtures for witnesses and counterexamples -/

def unavailErr : GoErr := .statusE .unavailable "connection refused"

def invalidArgErr : GoErr := .statusE .invalidArgument "bad request"

/-- An invoker failing with Unavailable on attempts `0..k-1`, succeeding
from attempt `k` on. -/
def invokeSucceedAt (k : Nat) : Nat → Option GoErr :=
  fun i => if i < k then some unavailErr else none

def invokeAlwaysFail : Nat → Option GoErr := fun _ => some unavailErr

def ctxNeverDone : Nat → Option CtxErr := fun _ => none

/-- A context cancelled during the backoff wait following attempt `k`. -/
def ctxDoneAt (k : Nat) : Nat → Option CtxErr :=
  fun i => if i = k then some .canceled else none

def emptyCtx : Context := ⟨none, [], []⟩

/-- A context whose incoming metadata has only the authorization value `v`. -/
def mkAuthCtx (v : String) : Context := ⟨some [("authorization", [v])], [], []⟩

/-- A context whose incoming metadata has only `x-user-id = v`. -/
def mkUserIDCtx (v : String) : Context := ⟨some [("x-user-id", [v])], [], []⟩

/-- A validator accepting every token and echoing it into the claims; used to
observe exactly which string the interceptor hands to the validator. -/
def echoValidator : String → Except GoErr JWTClaims :=
  fun s => .ok ⟨(s.length : Int), s, s⟩

def okValidator : String → Except GoErr JWTClaims :=
  fun _ => .ok ⟨42, "+777", "dev-1"⟩

def rejectValidator : String → Except GoErr JWTClaims :=
  fun _ => .error (.otherE "token expired")

/-- A validator accepting exactly the token "tok123". -/
def exactValidator : String → Except GoErr JWTClaims :=
  fun s => if s = "tok123" then .ok ⟨7, "p", "d"⟩
           else .error (.otherE "signature mismatch")

def panickingHandler : Context → Nat → HandlerOutcome Nat :=
  fun _ _ => .panicked "runtime error: nil pointer dereference"

/-- Caller-visible summary of an auth decision: the returned error (if
rejected) and the identity visible to the handler (if proceeding). -/
def decisionSummary : AuthDecision → Option GoErr × Option AuthInfo
  | .rejected e => (some e, none)
  | .proceed c => (none, GetAuthInfo c)

/-- Outgoing metadata of the context a proceeding decision hands on. -/
def decisionOutgoing : AuthDecision → Option (List (String × String))
  | .rejected _ => none
  | .proceed c => some c.outgoingMD

/-! ## Retry-loop unfolding lemmas -/

theorem retryGo_invoke_ok (W : Nat) (invoke : Nat → Option GoErr)
    (ctxDone : Nat → Option CtxErr) (i r : Nat) (h : invoke i = none) :
    retryGo W invoke ctxDone i r = ⟨none, 1, []⟩ := by
  cases r <;> simp [retryGo, h]

theorem retryGo_nonretryable (W : Nat) (invoke : Nat → Option GoErr)
    (ctxDone : Nat → Option CtxErr) (i r : Nat) (e : GoErr)
    (h : invoke i = some e) (hre : isRetryable (errCode e) = false) :
    retryGo W invoke ctxDone i r = ⟨some e, 1, []⟩ := by
  cases r <;> simp [retryGo, h, hre]

theorem retryGo_exhausted (W : Nat) (invoke : Nat → Option GoErr)
    (ctxDone : Nat → Option CtxErr) (i : Nat) (e : GoErr)
    (h : invoke i = some e) (hre : isRetryable (errCode e) = true) :
    retryGo W invoke ctxDone i 0 = ⟨some e, 1, []⟩ := by
  simp [retryGo, h, hre]

theorem retryGo_cancelled (W : Nat) (invoke : Nat → Option GoErr)
    (ctxDone : Nat → Option CtxErr) (i r : Nat) (e : GoErr) (ce : CtxErr)
    (h : invoke i = some e) (hre : isRetryable (errCode e) = true)
    (hc : ctxDone i = some ce) :
    retryGo W invoke ctxDone i (r + 1) = ⟨some ce.toErr, 1, []⟩ := by
  simp [retryGo, h, hre, hc]

theorem retryGo_step (W : Nat) (invoke : Nat → Option GoErr)
    (ctxDone : Nat → Option CtxErr) (i r : Nat) (e : GoErr)
    (h : invoke i = some e) (hre : isRetryable (errCode e) = true)
    (hc : ctxDone i = none) :
    retryGo W invoke ctxDone i (r + 1) =
      ⟨(retryGo W invoke ctxDone (i + 1) r).result,
       (retryGo W invoke ctxDone (i + 1) r).invocations + 1,
       W * (i + 1) :: (retryGo W invoke ctxDone (i + 1) r).waits⟩ := by
  conv_lhs => rw [retryGo]
  simp [h, hre, hc]

/-- After `m` consecutive retryable failures with uncancelled waits, the loop
run from `(i, r)` is the `m`-step prefix of waits followed by the loop run
from `(i + m, r - m)`. -/
theorem retryGo_consume (W : Nat) (invoke : Nat → Option GoErr)
    (ctxDone : Nat → Option CtxErr) :
    ∀ (m i r : Nat), m ≤ r →
    (∀ j, j < m → ∃ e, invoke (i + j) = some e ∧ isRetryable (errCode e) = true) →
    (∀ j, j < m → ctxDone (i + j) = none) →
    retryGo W invoke ctxDone i r =
      ⟨(retryGo W invoke ctxDone (i + m) (r - m)).result,
       (retryGo W invoke ctxDone (i + m) (r - m)).invocations + m,
       (List.range m).map (fun j => W * (i + j + 1)) ++
         (retryGo W invoke ctxDone (i + m) (r - m)).waits⟩ := by
  intro m
  induction m with
  | zero =>
    intro i r _ _ _
    rfl
  | succ m ih =>
    intro i r hmr hfail hctx
    obtain ⟨e, he, hre⟩ := hfail 0 (Nat.succ_pos m)
    have hc0 : ctxDone i = none := by
      have := hctx 0 (Nat.succ_pos m)
      simpa using this
    rw [Nat.add_zero] at he
    cases r with
    | zero => omega
    | succ r =>
      rw [retryGo_step W invoke ctxDone i r e he hre hc0]
      have hfail' : ∀ j, j < m →
          ∃ e, invoke (i + 1 + j) = some e ∧ isRetryable (errCode e) = true := by
        intro j hj
        have := hfail (j + 1) (by omega)
        have harr : i + (j + 1) = i + 1 + j := by omega
        rwa [harr] at this
      have hctx' : ∀ j, j < m → ctxDone (i + 1 + j) = none := by
        intro j hj
        have := hctx (j + 1) (by omega)
        have harr : i + (j + 1) = i + 1 + j := by omega
        rwa [harr] at this
      rw [ih (i + 1) r (by omega) hfail' hctx']
      have hpos : i + 1 + m = i + (m + 1) := by omega
      have hrem : r - m = r + 1 - (m + 1) := by omega
      rw [hpos, hrem]
      simp only [RetryResult.mk.injEq]
      refine ⟨trivial, by omega, ?_⟩
      rw [List.range_succ_eq_map, List.map_cons, List.map_map, List.cons_append]
      have hfun : ((fun j => W * (i + j + 1)) ∘ Nat.succ) =
          (fun j => W * (i + 1 + j + 1)) := by
        funext j
        show W * (i + (j + 1) + 1) = W * (i + 1 + j + 1)
        congr 1
        omega
      rw [hfun]

/-! ## Claim C1: retry engine result and invocation counts -/

/-- C1: for the retry interceptor configured with max retries `N`: retryable
failures on attempts 1..k followed by success on attempt k+1 (k ≤ N) yield
success after exactly k+1 invocations; a failure with a code outside the
retryable set {Unavailable, ResourceExhausted, Aborted, Internal} is returned
verbatim at once with no further invocations; N+1 retryable failures yield
the last attempt's error verbatim after exactly N+1 invocations. -/
theorem retry_engine_correct (N W : Nat) (invoke : Nat → Option GoErr)
    (ctxDone : Nat → Option CtxErr) :
    (∀ k, k ≤ N →
      (∀ j, j < k → ∃ e, invoke j = some e ∧ isRetryable (errCode e) = true) →
      (∀ j, j < k → ctxDone j = none) →
      invoke k = none →
      retryInterceptor N W invoke ctxDone =
        ⟨none, k + 1, (List.range k).map (fun j => W * (j + 1))⟩) ∧
    (∀ k e, k ≤ N →
      (∀ j, j < k → ∃ e2, invoke j = some e2 ∧ isRetryable (errCode e2) = true) →
      (∀ j, j < k → ctxDone j = none) →
      invoke k = some e → isRetryable (errCode e) = false →
      retryInterceptor N W invoke ctxDone =
        ⟨some e, k + 1, (List.range k).map (fun j => W * (j + 1))⟩) ∧
    (∀ e, (∀ j, j < N → ∃ e2, invoke j = some e2 ∧ isRetryable (errCode e2) = true) →
      (∀ j, j < N → ctxDone j = none) →
      invoke N = some e → isRetryable (errCode e) = true →
      retryInterceptor N W invoke ctxDone =
        ⟨some e, N + 1, (List.range N).map (fun j => W * (j + 1))⟩) := by
  refine ⟨?_, ?_, ?_⟩
  · intro k hk hfail hctx hsucc
    have hf0 : ∀ j, j < k →
        ∃ e, invoke (0 + j) = some e ∧ isRetryable (errCode e) = true := by
      intro j hj
      simpa using hfail j hj
    have hc0 : ∀ j, j < k → ctxDone (0 + j) = none := by
      intro j hj
      simpa using hctx j hj
    unfold retryInterceptor
    rw [retryGo_consume W invoke ctxDone k 0 N hk hf0 hc0]
    simp only [Nat.zero_add]
    rw [retryGo_invoke_ok W invoke ctxDone k (N - k) hsucc]
    simp [Nat.add_comm]
  · intro k e hk hfail hctx hke hre
    have hf0 : ∀ j, j < k →
        ∃ e2, invoke (0 + j) = some e2 ∧ isRetryable (errCode e2) = true := by
      intro j hj
      simpa using hfail j hj
    have hc0 : ∀ j, j < k → ctxDone (0 + j) = none := by
      intro j hj
      simpa using hctx j hj
    unfold retryInterceptor
    rw [retryGo_consume W invoke ctxDone k 0 N hk hf0 hc0]
    simp only [Nat.zero_add]
    rw [retryGo_nonretryable W invoke ctxDone k (N - k) e hke hre]
    simp [Nat.add_comm]
  · intro e hfail hctx hNe hre
    have hf0 : ∀ j, j < N →
        ∃ e2, invoke (0 + j) = some e2 ∧ isRetryable (errCode e2) = true := by
      intro j hj
      simpa using hfail j hj
    have hc0 : ∀ j, j < N → ctxDone (0 + j) = none := by
      intro j hj
      simpa using hctx j hj
    unfold retryInterceptor
    rw [retryGo_consume W invoke ctxDone N 0 N (Nat.le_refl N) hf0 hc0]
    simp only [Nat.zero_add, Nat.sub_self]
    rw [retryGo_exhausted W invoke ctxDone N e hNe hre]
    simp [Nat.add_comm]

/-- Witness for C1: N = 3, W = 10, Unavailable on attempts 1-2, success on
attempt 3: success, 3 invocations, waits 10 then 20. -/
theorem retry_engine_correct_witness :
    retryInterceptor 3 10 (invokeSucceedAt 2) ctxNeverDone = ⟨none, 3, [10, 20]⟩ := by
  have h := (retry_engine_correct 3 10 (invokeSucceedAt 2) ctxNeverDone).1 2
    (by decide)
    (fun j hj => ⟨unavailErr, by simp [invokeSucceedAt, hj], by decide⟩)
    (fun j hj => rfl)
    (by decide)
  exact h.trans (by decide)

/-! ## Claim C2: backoff durations and cancellation during the wait -/

/-- C2: after a retryable failure on attempt `i+1` with `i < N` (all earlier
waits uncancelled), the engine waits exactly `W * (i+1)` before the next
attempt — no cap; if instead the governing context is done during that wait,
the context's error is returned immediately and the underlying call is never
invoked again (exactly `i+1` invocations). -/
theorem retry_backoff_correct (N W i : Nat) (invoke : Nat → Option GoErr)
    (ctxDone : Nat → Option CtxErr) (hiN : i < N)
    (hfail : ∀ j, j ≤ i → ∃ e, invoke j = some e ∧ isRetryable (errCode e) = true)
    (hprev : ∀ j, j < i → ctxDone j = none) :
    (ctxDone i = none →
      (retryInterceptor N W invoke ctxDone).waits[i]? = some (W * (i + 1))) ∧
    (∀ ce, ctxDone i = some ce →
      retryInterceptor N W invoke ctxDone =
        ⟨some ce.toErr, i + 1, (List.range i).map (fun j => W * (j + 1))⟩) := by
  constructor
  · intro hci
    have hf0 : ∀ j, j < i + 1 →
        ∃ e, invoke (0 + j) = some e ∧ isRetryable (errCode e) = true := by
      intro j hj
      simpa using hfail j (by omega)
    have hc0 : ∀ j, j < i + 1 → ctxDone (0 + j) = none := by
      intro j hj
      by_cases hji : j = i
      · simpa [hji] using hci
      · simpa using hprev j (by omega)
    unfold retryInterceptor
    rw [retryGo_consume W invoke ctxDone (i + 1) 0 N (by omega) hf0 hc0]
    simp only [Nat.zero_add]
    have hlen : i < ((List.range (i + 1)).map (fun j => W * (j + 1))).length := by
      simp
    show ((List.range (i + 1)).map (fun j => W * (j + 1)) ++
      (retryGo W invoke ctxDone (i + 1) (N - (i + 1))).waits)[i]? = some (W * (i + 1))
    rw [List.getElem?_append, if_pos hlen, List.getElem?_map]
    simp [List.getElem?_range, Nat.lt_succ_self]
  · intro ce hce
    have hf0 : ∀ j, j < i →
        ∃ e, invoke (0 + j) = some e ∧ isRetryable (errCode e) = true := by
      intro j hj
      simpa using hfail j (by omega)
    have hc0 : ∀ j, j < i → ctxDone (0 + j) = none := by
      intro j hj
      simpa using hprev j hj
    unfold retryInterceptor
    rw [retryGo_consume W invoke ctxDone i 0 N (by omega) hf0 hc0]
    simp only [Nat.zero_add]
    obtain ⟨s, hs⟩ : ∃ s, N - i = s + 1 := ⟨N - i - 1, by omega⟩
    rw [hs]
    obtain ⟨e, he, hre⟩ := hfail i (Nat.le_refl i)
    rw [retryGo_cancelled W invoke ctxDone i s e ce he hre hce]
    simp [Nat.add_comm]

/-- Witness for C2: N = 2, W = 5, every attempt fails with Unavailable and
the context is cancelled during the wait after attempt 2 (index 1): the
interceptor returns the context's cancellation error after exactly 2
invocations and one completed wait of 5. -/
theorem retry_backoff_correct_witness :
    retryInterceptor 2 5 invokeAlwaysFail (ctxDoneAt 1) =
      ⟨some GoErr.ctxCanceled, 2, [5]⟩ := by
  have h := (retry_backoff_correct 2 5 1 invokeAlwaysFail (ctxDoneAt 1)
    (by decide)
    (fun j hj => ⟨unavailErr, rfl, by decide⟩)
    (fun j hj => by
      have hne : j ≠ 1 := by omega
      simp [ctxDoneAt, hne])).2 CtxErr.canceled (by decide)
  exact h.trans (by decide)

/-! ## Claim C3: panic recovery -/

/-- C3: whenever the handler panics under the recovery interceptor, the
caller receives `(nil, status error Internal "internal error")`, and the
panic value is never re-raised out of the interceptor (its result is never a
panic), whatever the panic value was. -/
theorem recovery_contains_panics {α β : Type}
    (handler : Context → α → HandlerOutcome β) (ctx : Context) (req : α)
    (v : String) (h : handler ctx req = .panicked v) :
    recoveryInterceptor handler ctx req =
      .returns none (some (.statusE .internalC "internal error")) ∧
    ∀ w, recoveryInterceptor handler ctx req ≠ .panicked w := by
  constructor
  · simp [recoveryInterceptor, h]
  · intro w
    simp [recoveryInterceptor, h]

/-- Witness for C3: a handler panicking with a nil-pointer message yields the
Internal "internal error" response. -/
theorem recovery_contains_panics_witness :
    recoveryInterceptor panickingHandler emptyCtx 0 =
      .returns none (some (.statusE .internalC "internal error")) :=
  (recovery_contains_panics panickingHandler emptyCtx 0
    "runtime error: nil pointer dereference" rfl).1

/-! ## Claim C4: Connect-to-gRPC error bridge -/

/-- C4: `ConvertConnectToGRPCError` maps nil to nil; a Connect error with one
of the 13 table codes to a status error with the table's target code and the
identical message; a Connect error with any other code, and any non-Connect
error, to code Unknown with the input's text.  The function is total and pure
by construction (a Lean `def` defined on all inputs), so it cannot panic. -/
theorem convert_connect_correct :
    ConvertConnectToGRPCError none = none ∧
    (∀ p, p ∈ bridgeTable → ∀ m,
      ConvertConnectToGRPCError (some (.connectE p.1 m)) =
        some (.statusE p.2 m)) ∧
    (∀ c m, c ∉ bridgeTable.map Prod.fst →
      ConvertConnectToGRPCError (some (.connectE c m)) =
        some (.statusE .unknown m)) ∧
    (∀ m, ConvertConnectToGRPCError (some (.genericE m)) =
      some (.statusE .unknown m)) := by
  refine ⟨rfl, ?_, ?_, fun m => rfl⟩
  · intro p hp m
    fin_cases hp <;> rfl
  · intro c m hc
    cases c <;> first
      | rfl
      | exact absurd (by decide) hc

/-- Witness for C4: NotFound maps to NotFound keeping the message;
Canceled (outside the 13-code table) maps to Unknown keeping the message. -/
theorem convert_connect_correct_witness :
    ConvertConnectToGRPCError (some (.connectE .notFound "user not found")) =
      some (.statusE .notFound "user not found") ∧
    ConvertConnectToGRPCError (some (.connectE .canceled "ctx gone")) =
      some (.statusE .unknown "ctx gone") :=
  ⟨convert_connect_correct.2.1 (ConnectCode.notFound, Code.notFound)
      (by decide) "user not found",
   convert_connect_correct.2.2.1 ConnectCode.canceled "ctx gone" (by decide)⟩

/-! ## Auth gate helper lemmas -/

theorem GetMetadata_mkAuthCtx (s : String) :
    GetMetadata (mkAuthCtx s) "authorization" = s := rfl

/-- The identity attached under the private key is visible through
`GetAuthInfo`, outgoing-metadata appends notwithstanding. -/
theorem GetAuthInfo_attached (ctx : Context) (a : AuthInfo) (k v : String) :
    GetAuthInfo (appendToOutgoingContext (withValue ctx .authKey (.authV a)) k v) =
      some a := rfl

/-- On a non-skipped method with a non-empty token, the decision is entirely
driven by the validator's verdict on the stripped token. -/
theorem authDecision_nonskip (validator : String → Except GoErr JWTClaims)
    (skipM : List String) (ctx : Context) (m : String) (hmem : m ∉ skipM)
    (tok : String) (hg : GetMetadata ctx "authorization" = tok)
    (htk : tok ≠ "") :
    authDecision validator skipM ctx m =
      match validator (stripBearer tok) with
      | .error _ => .rejected (.statusE .unauthenticated "invalid token")
      | .ok claims =>
        .proceed (appendToOutgoingContext
          (withValue ctx .authKey
            (.authV ⟨claims.userID, claims.phone, claims.deviceID⟩))
          "x-user-id" (toString claims.userID)) := by
  simp [authDecision, hmem, hg, htk]

/-! ## Claim C7: missing authorization token -/

/-- C7: for a method outside the skip set, when the authorization metadata
lookup yields the empty string the interceptor rejects with Unauthenticated
"missing authorization token" and the handler is never invoked (the decision
is a rejection, and the interceptor's caller-visible result is that error for
every handler).  A context with no incoming metadata always yields the empty
lookup. -/
theorem auth_missing_token (α β : Type)
    (validator : String → Except GoErr JWTClaims) (skipM : List String)
    (ctx : Context) (m : String)
    (hskip : skipM.contains m = false)
    (htok : GetMetadata ctx "authorization" = "") :
    authDecision validator skipM ctx m =
      .rejected (.statusE .unauthenticated "missing authorization token") ∧
    (∀ (handler : Context → α → HandlerOutcome β) req,
      AuthInterceptor validator skipM handler ctx m req =
        .returns none
          (some (.statusE .unauthenticated "missing authorization token"))) ∧
    (∀ ctx2 : Context, ctx2.incomingMD = none →
      GetMetadata ctx2 "authorization" = "") := by
  have hmem : m ∉ skipM := by simpa using hskip
  have hd : authDecision validator skipM ctx m =
      .rejected (.statusE .unauthenticated "missing authorization token") := by
    simp [authDecision, hmem, htok]
  refine ⟨hd, ?_, ?_⟩
  · intro handler req
    simp [AuthInterceptor, hd]
  · intro ctx2 h2
    simp [GetMetadata, h2]

/-- Witness for C7: no incoming metadata at all on a non-skipped method. -/
theorem auth_missing_token_witness :
    authDecision okValidator [] emptyCtx "/svc/M" =
      .rejected (.statusE .unauthenticated "missing authorization token") :=
  (auth_missing_token Nat Nat okValidator [] emptyCtx "/svc/M" rfl rfl).1

/-! ## Claim C6: validator failures all collapse to "invalid token" -/

/-- C6: whatever error the injected validator returns, the interceptor
rejects with Unauthenticated "invalid token", the handler is never invoked,
and the caller-visible outcome is the same for any two failing validators
(no validator detail reaches the caller). -/
theorem auth_invalid_token (α β : Type)
    (validator : String → Except GoErr JWTClaims) (skipM : List String)
    (ctx : Context) (m : String) (e : GoErr)
    (hskip : skipM.contains m = false)
    (htok : GetMetadata ctx "authorization" ≠ "")
    (hval : validator (stripBearer (GetMetadata ctx "authorization")) = .error e) :
    authDecision validator skipM ctx m =
      .rejected (.statusE .unauthenticated "invalid token") ∧
    (∀ validator2 e2,
      validator2 (stripBearer (GetMetadata ctx "authorization")) = .error e2 →
      authDecision validator2 skipM ctx m = authDecision validator skipM ctx m) ∧
    (∀ (handler : Context → α → HandlerOutcome β) req,
      AuthInterceptor validator skipM handler ctx m req =
        .returns none (some (.statusE .unauthenticated "invalid token"))) := by
  have hmem : m ∉ skipM := by simpa using hskip
  have hd : authDecision validator skipM ctx m =
      .rejected (.statusE .unauthenticated "invalid token") := by
    simp [authDecision, hmem, htok, hval]
  refine ⟨hd, ?_, ?_⟩
  · intro validator2 e2 hv2
    have hd2 : authDecision validator2 skipM ctx m =
        .rejected (.statusE .unauthenticated "invalid token") := by
      simp [authDecision, hmem, htok, hv2]
    rw [hd2, hd]
  · intro handler req
    simp [AuthInterceptor, hd]

/-- Witness for C6: a validator failing with "token expired" surfaces only
"invalid token". -/
theorem auth_invalid_token_witness :
    authDecision rejectValidator [] (mkAuthCtx "sometoken") "/svc/M" =
      .rejected (.statusE .unauthenticated "invalid token") :=
  (auth_invalid_token Nat Nat rejectValidator [] (mkAuthCtx "sometoken")
    "/svc/M" (.otherE "token expired") rfl
    (by rw [GetMetadata_mkAuthCtx]; decide) rfl).1

/-! ## Claim C8: skip-listed methods bypass authentication -/

/-- C8: a method in the skip set proceeds into the handler with the context
unchanged — so `GetAuthInfo` on the handler's context is not-found whenever
none was attached upstream — the validator is never consulted (any validator
yields the same decision), for any authorization metadata. -/
theorem auth_skip (α β : Type)
    (validator : String → Except GoErr JWTClaims) (skipM : List String)
    (ctx : Context) (m : String)
    (hskip : skipM.contains m = true)
    (hup : GetAuthInfo ctx = none) :
    authDecision validator skipM ctx m = .proceed ctx ∧
    (∀ validator2, authDecision validator2 skipM ctx m = .proceed ctx) ∧
    (∀ (handler : Context → α → HandlerOutcome β) req,
      AuthInterceptor validator skipM handler ctx m req = handler ctx req) ∧
    GetAuthInfo ctx = none := by
  have hmem : m ∈ skipM := by simpa using hskip
  have hd : ∀ validator2 : String → Except GoErr JWTClaims,
      authDecision validator2 skipM ctx m = .proceed ctx := by
    intro validator2
    simp [authDecision, hmem]
  refine ⟨hd validator, hd, ?_, hup⟩
  intro handler req
  simp [AuthInterceptor, hd validator]

/-- Witness for C8: a skip-listed method proceeds untouched even with garbage
authorization metadata. -/
theorem auth_skip_witness :
    authDecision okValidator ["/auth.AuthService/SendCode"] (mkAuthCtx "garbage")
      "/auth.AuthService/SendCode" = .proceed (mkAuthCtx "garbage") :=
  (auth_skip Nat Nat okValidator ["/auth.AuthService/SendCode"]
    (mkAuthCtx "garbage") "/auth.AuthService/SendCode" (by decide) rfl).1

/-! ## Claim C9: successful validation attaches identity and metadata -/

/-- C9: when the validator accepts, the handler runs with a context holding
the claims as `AuthInfo` under the private collision-proof key — unrelated
string-keyed context writes cannot shadow it — and whose outgoing metadata
gains `x-user-id` bound to the decimal string of the user id; the incoming
metadata is untouched. -/
theorem auth_success (α β : Type)
    (validator : String → Except GoErr JWTClaims) (skipM : List String)
    (ctx : Context) (m : String) (claims : JWTClaims)
    (hskip : skipM.contains m = false)
    (htok : GetMetadata ctx "authorization" ≠ "")
    (hval : validator (stripBearer (GetMetadata ctx "authorization")) = .ok claims) :
    ∃ ctx2,
      authDecision validator skipM ctx m = .proceed ctx2 ∧
      GetAuthInfo ctx2 = some ⟨claims.userID, claims.phone, claims.deviceID⟩ ∧
      ctx2.outgoingMD = ctx.outgoingMD ++ [("x-user-id", toString claims.userID)] ∧
      ctx2.incomingMD = ctx.incomingMD ∧
      (∀ s v, GetAuthInfo (withValue ctx2 (.strKey s) (.strV v)) =
        some ⟨claims.userID, claims.phone, claims.deviceID⟩) ∧
      (∀ (handler : Context → α → HandlerOutcome β) req,
        AuthInterceptor validator skipM handler ctx m req = handler ctx2 req) := by
  have hmem : m ∉ skipM := by simpa using hskip
  have hd : authDecision validator skipM ctx m =
      .proceed (appendToOutgoingContext
        (withValue ctx .authKey (.authV ⟨claims.userID, claims.phone, claims.deviceID⟩))
        "x-user-id" (toString claims.userID)) := by
    simp [authDecision, hmem, htok, hval]
  refine ⟨_, hd, rfl, rfl, rfl, fun s v => rfl, ?_⟩
  intro handler req
  simp [AuthInterceptor, hd]

/-- Witness for C9: a validator yielding claims {42, "+777", "dev-1"} puts
exactly that identity in the handler's context and appends
("x-user-id", "42") to the outgoing metadata. -/
theorem auth_success_witness :
    decisionSummary (authDecision okValidator [] (mkAuthCtx "abc") "/svc/M") =
      (none, some ⟨42, "+777", "dev-1"⟩) ∧
    decisionOutgoing (authDecision okValidator [] (mkAuthCtx "abc") "/svc/M") =
      some [("x-user-id", "42")] := by
  obtain ⟨ctx2, h1, h2, h3, h4, h5, h6⟩ := auth_success Nat Nat okValidator []
    (mkAuthCtx "abc") "/svc/M" ⟨42, "+777", "dev-1"⟩ rfl
    (by rw [GetMetadata_mkAuthCtx]; decide) rfl
  constructor
  · rw [h1]
    simp [decisionSummary, h2]
  · rw [h1]
    simp only [decisionOutgoing, h3]
    decide

/-! ## Claim C5: Bearer-prefix stripping (corrected) -/

/-- C5 counterexample: the 7-character value "Bearer " carries the literal,
case-sensitive prefix "Bearer ", so the claim demands the validator receive
the value minus its first 7 characters, namely ""; the code's
`len(token) > 7` guard leaves it untouched, and the validator receives
"Bearer " itself — observed through the echoing validator, whose claims
record the exact string it was handed. -/
theorem bearer_prefix_cex :
    ("Bearer " : String).data.take 7 = "Bearer ".data ∧
    ("Bearer " : String) ≠ "" ∧
    stripBearer "Bearer " = "Bearer " ∧
    String.mk (("Bearer " : String).data.drop 7) = "" ∧
    decisionSummary
        (authDecision echoValidator [] (mkAuthCtx "Bearer ") "/svc/Method") =
      (none, some ⟨7, "Bearer ", "Bearer "⟩) :=
  ⟨by decide, by decide, by decide, by decide, by decide⟩

/-- C5 amended: for every non-empty authorization value, the validator
receives the value minus its first 7 characters exactly when the value is
strictly longer than 7 characters and starts with "Bearer "; otherwise it
receives the value unchanged.  Consequently a valid non-empty token that
does not itself start with the 7-character prefix "Bearer " validates
identically bare and with the prefix. -/
theorem bearer_prefix_amended (t : String) (hne : t ≠ "")
    (hnp : t.data.take 7 ≠ "Bearer ".data) :
    stripBearer (String.mk ("Bearer ".data ++ t.data)) = t ∧
    stripBearer t = t ∧
    (∀ validator skipM m, List.contains skipM m = false →
      decisionSummary (authDecision validator skipM
          (mkAuthCtx (String.mk ("Bearer ".data ++ t.data))) m) =
        decisionSummary (authDecision validator skipM (mkAuthCtx t) m)) := by
  have hdata : t.data ≠ [] := by
    intro h
    apply hne
    cases t with
    | mk d =>
      have h' : d = [] := h
      rw [h']
  have hlen7 : ("Bearer ".data).length = 7 := rfl
  have h1 : stripBearer (String.mk ("Bearer ".data ++ t.data)) = t := by
    unfold stripBearer
    have hd : (String.mk ("Bearer ".data ++ t.data)).data =
        "Bearer ".data ++ t.data := rfl
    rw [hd]
    have hcond : 7 < ("Bearer ".data ++ t.data).length ∧
        ("Bearer ".data ++ t.data).take 7 = "Bearer ".data := by
      constructor
      · rw [List.length_append, hlen7]
        have hp := List.length_pos.mpr hdata
        omega
      · conv_lhs => rw [← hlen7]
        exact List.take_left ..
    rw [if_pos hcond]
    conv_lhs => rw [← hlen7]
    rw [List.drop_left]
  have h2 : stripBearer t = t := by
    unfold stripBearer
    rw [if_neg]
    intro hc
    exact hnp hc.2
  refine ⟨h1, h2, ?_⟩
  intro validator skipM m hskip
  have hmem : m ∉ skipM := by simpa using hskip
  have hg1 : GetMetadata (mkAuthCtx (String.mk ("Bearer ".data ++ t.data)))
      "authorization" = String.mk ("Bearer ".data ++ t.data) :=
    GetMetadata_mkAuthCtx _
  have hg2 : GetMetadata (mkAuthCtx t) "authorization" = t :=
    GetMetadata_mkAuthCtx t
  have hne2 : String.mk ("Bearer ".data ++ t.data) ≠ "" := by
    intro h
    have hdd : "Bearer ".data ++ t.data = [] := congrArg String.data h
    simp at hdd
  rw [authDecision_nonskip validator skipM
      (mkAuthCtx (String.mk ("Bearer ".data ++ t.data))) m hmem
      (String.mk ("Bearer ".data ++ t.data)) hg1 hne2,
    authDecision_nonskip validator skipM (mkAuthCtx t) m hmem t hg2 hne,
    h1, h2]
  cases hv : validator t with
  | error e => simp [decisionSummary, hv]
  | ok claims => simp [decisionSummary, hv, GetAuthInfo_attached]

/-- Witness for the amended C5: the token "tok123", accepted by a validator
recognizing exactly it, validates identically with and without the prefix. -/
theorem bearer_prefix_amended_witness :
    stripBearer (String.mk ("Bearer ".data ++ "tok123".data)) = "tok123" ∧
    stripBearer "tok123" = "tok123" ∧
    decisionSummary (authDecision exactValidator []
        (mkAuthCtx (String.mk ("Bearer ".data ++ "tok123".data))) "/svc/M") =
      decisionSummary (authDecision exactValidator [] (mkAuthCtx "tok123")
        "/svc/M") := by
  obtain ⟨h1, h2, h3⟩ := bearer_prefix_amended "tok123" (by decide) (by decide)
  exact ⟨h1, h2, h3 exactValidator [] "/svc/M" rfl⟩

/-! ## Claim C10: GetUserID parsing (corrected) -/

/-- C10 counterexample: `" 123"` and `"\u000B123"` (vertical tab) do not
begin with a decimal integer — they begin with white space the scanner
silently skips — yet `GetUserID` returns 123; and `"9223372036854775808"`
begins with the decimal integer 2^63, yet `GetUserID` returns 0 rather than
that leading integer, because the value overflows int64 and the scan
fails. -/
theorem getUserID_cex :
    GetUserID (mkUserIDCtx " 123") = 123 ∧
    GetUserID (mkUserIDCtx "\u000B123") = 123 ∧
    GetUserID (mkUserIDCtx "9223372036854775808") = 0 ∧
    GetUserID (mkUserIDCtx "9223372036854775808") ≠ 9223372036854775808 :=
  ⟨by decide, by decide, by decide, by decide⟩

theorem isDigit_toNat (c : Char) (h : c.isDigit = true) :
    48 ≤ c.toNat ∧ c.toNat ≤ 57 := by
  simp [Char.isDigit] at h
  exact ⟨h.1, h.2⟩

theorem digit_not_space (c : Char) (h : c.isDigit = true) :
    isGoSpace c = false := by
  have hb := isDigit_toNat c h
  simp only [isGoSpace, decide_eq_false_iff_not]
  intro hcon
  rcases hcon with h1 | h1 | h1 | h1 | h1 | h1 | h1 | h1 | h1 | h1 <;> omega

theorem digit_not_newline (c : Char) (h : c.isDigit = true) :
    (c == '\n') = false := by
  cases h1 : c == '\n' with
  | true =>
    have hc := eq_of_beq h1
    subst hc
    exact absurd h (by decide)
  | false => rfl

theorem digit_not_sign (c : Char) (h : c.isDigit = true) :
    (c == '-') = false ∧ (c == '+') = false := by
  have hm : (c == '-') = false := by
    cases h1 : c == '-' with
    | true =>
      have hc := eq_of_beq h1
      subst hc
      exact absurd h (by decide)
    | false => rfl
  have hp : (c == '+') = false := by
    cases h1 : c == '+' with
    | true =>
      have hc := eq_of_beq h1
      subst hc
      exact absurd h (by decide)
    | false => rfl
  exact ⟨hm, hp⟩

theorem takeWhile_all_append (p : Char → Bool) (l₁ l₂ : List Char)
    (h₁ : ∀ c ∈ l₁, p c = true)
    (h₂ : ∀ c, l₂.head? = some c → p c = false) :
    (l₁ ++ l₂).takeWhile p = l₁ := by
  induction l₁ with
  | nil =>
    cases l₂ with
    | nil => rfl
    | cons c t => simp [List.takeWhile_cons, h₂ c rfl]
  | cons a l ih =>
    simp only [List.cons_append, List.takeWhile_cons,
      h₁ a (List.mem_cons_self a l), if_true]
    rw [ih (fun c hc => h₁ c (List.mem_cons_of_mem a hc))]

/-- C10 amended: `GetUserID` is total and never fails: it returns 0 when the
`x-user-id` lookup is empty or when the `Sscanf "%d"` scan of the value fails
(a newline reached while skipping leading white space, no digits after the
skipped white space and an optional sign, or int64 overflow), so 0 is
indistinguishable from an actual user id of 0; when the scan succeeds its
value is returned — in particular, a value consisting of decimal digits whose
value fits in int64, followed by anything not starting with a digit, yields
exactly the value of that digit run, trailing characters notwithstanding. -/
theorem getUserID_amended :
    (∀ ctx, GetMetadata ctx "x-user-id" = "" → GetUserID ctx = 0) ∧
    (∀ ctx, sscanfInt64 (GetMetadata ctx "x-user-id") = none →
      GetUserID ctx = 0) ∧
    (∀ ctx n, sscanfInt64 (GetMetadata ctx "x-user-id") = some n →
      GetUserID ctx = n) ∧
    (∀ ds rest, ds ≠ [] → (∀ c ∈ ds, c.isDigit = true) →
      (∀ c, rest.head? = some c → c.isDigit = false) →
      (digitsVal ds : Int) ≤ int64Max →
      sscanfInt64 (String.mk (ds ++ rest)) = some ((digitsVal ds : Int))) := by
  refine ⟨?_, ?_, ?_, ?_⟩
  · intro ctx h
    simp [GetUserID, h]
  · intro ctx h
    by_cases hv : GetMetadata ctx "x-user-id" = ""
    · simp [GetUserID, hv]
    · simp [GetUserID, hv, h]
  · intro ctx n h
    have hv : GetMetadata ctx "x-user-id" ≠ "" := by
      intro he
      rw [he] at h
      exact Option.noConfusion h
    simp [GetUserID, hv, h]
  · intro ds rest hne hdig hrest hle
    obtain ⟨d, ds', rfl⟩ : ∃ d ds', ds = d :: ds' := by
      cases ds with
      | nil => exact absurd rfl hne
      | cons a l => exact ⟨a, l, rfl⟩
    have hd : d.isDigit = true := hdig d (List.mem_cons_self d ds')
    have hsp : isGoSpace d = false := digit_not_space d hd
    have hnl : (d == '\n') = false := digit_not_newline d hd
    have hsign := digit_not_sign d hd
    have htw : (d :: (ds' ++ rest)).takeWhile Char.isDigit = d :: ds' :=
      takeWhile_all_append Char.isDigit (d :: ds') rest hdig hrest
    have hge : (0 : Int) ≤ (digitsVal (d :: ds') : Int) := Int.ofNat_nonneg _
    have hminneg : int64Min ≤ 0 := by decide
    have hnotrange : ¬((digitsVal (d :: ds') : Int) < int64Min ∨
        int64Max < (digitsVal (d :: ds') : Int)) := by
      intro hcon
      rcases hcon with hlt | hgt
      · omega
      · omega
    unfold sscanfInt64
    simp only [List.cons_append, List.dropWhile_cons, hsp, Bool.false_and,
      Bool.false_eq_true, if_false, hnl, hsign.1, hsign.2, Bool.false_or, htw,
      List.isEmpty_cons, if_neg hnotrange]

/-- Witness for the amended C10: the value "42x" scans to 42, the trailing
non-digit ignored. -/
theorem getUserID_amended_witness :
    sscanfInt64 (String.mk (['4', '2'] ++ ['x'])) =
      some ((digitsVal ['4', '2'] : Int)) ∧
    sscanfInt64 "42x" = some 42 := by
  have h := getUserID_amended.2.2.2 ['4', '2'] ['x'] (by decide) (by decide)
    (fun c hc => by
      have h' := Option.some.inj hc
      subst h'
      decide)
    (by decide)
  exact ⟨h, h⟩

end CgSharedLibs
